import Mathlib

/-!
Shallow embedding of `internal/deadlineconn/deadlineconn.go` (MinIO).

Modelling conventions:
* Go `time.Duration` and `time.Time` instants are integers (nanoseconds).
  The Go zero `time.Time` is the instant `0`, so `t.IsZero()` becomes `t = 0`
  and `time.Until(t) < 0` becomes `t - now < 0`.
* The wrapped `net.Conn` is abstract: each wrapper operation returns, besides
  the new wrapper state and its result, the list of calls it made into the
  inner connection (`InnerCall`).  Results produced by the inner connection
  (byte counts, errors) are parameters of the operation.
* `sync.Mutex` / `atomic.Bool` have no effect in this sequential model; the
  double-check of the abort flag after taking the lock is kept verbatim.
-/

/-- Go `time.Millisecond` in nanoseconds. -/
def millisecond : Int := 1000000

/-- Constant `updateInterval = 250 * time.Millisecond` (deadlineconn.go:30). -/
def updateInterval : Int := 250 * millisecond

/-- Errors visible at this layer: `context.DeadlineExceeded`, or an opaque
error produced by the inner connection. -/
inductive ConnError where
  | deadlineExceeded
  | inner (code : Nat)
deriving DecidableEq

/-- A call made by the wrapper into the wrapped `net.Conn`. -/
inductive InnerCall where
  | setReadDeadline (t : Int)
  | setWriteDeadline (t : Int)
  | setDeadline (t : Int)
  | read
  | write
  | close
deriving DecidableEq

/-- The `DeadlineConn` struct fields (deadlineconn.go:33-41), minus the inner
conn handle, the mutex and the atomics wrappers. -/
structure DeadlineConn where
  readDeadline : Int := 0
  readSetAt : Int := 0
  writeDeadline : Int := 0
  writeSetAt : Int := 0
  abortReads : Bool := false
  abortWrites : Bool := false
deriving DecidableEq

namespace DeadlineConn

/-- Method `setReadDeadline` (deadlineconn.go:44-61): the internal coalesced
read-deadline push.  Returns the new state and the inner calls made. -/
def setReadDeadline (c : DeadlineConn) (now : Int) : DeadlineConn × List InnerCall :=
  if c.readDeadline ≤ 0 ∨ c.abortReads = true then (c, [])
  else if c.abortReads = true then (c, [])
  else if updateInterval < now - c.readSetAt then
    ({ c with readSetAt := now },
      [InnerCall.setReadDeadline (now + c.readDeadline + updateInterval)])
  else (c, [])

/-- Method `setWriteDeadline` (deadlineconn.go:63-79): the internal coalesced
write-deadline push. -/
def setWriteDeadline (c : DeadlineConn) (now : Int) : DeadlineConn × List InnerCall :=
  if c.writeDeadline ≤ 0 ∨ c.abortWrites = true then (c, [])
  else if c.abortWrites = true then (c, [])
  else if updateInterval < now - c.writeSetAt then
    ({ c with writeSetAt := now },
      [InnerCall.setWriteDeadline (now + c.writeDeadline + updateInterval)])
  else (c, [])

/-- Method `Read` (deadlineconn.go:82-89).  `inr` is the `(n, err)` pair the inner
connection returns when its `Read` is reached. -/
def Read (c : DeadlineConn) (now : Int) (inr : Int × Option ConnError) :
    DeadlineConn × (Int × Option ConnError) × List InnerCall :=
  if c.abortReads = true then (c, (0, some ConnError.deadlineExceeded), [])
  else
    let p := setReadDeadline c now
    (p.1, inr, p.2 ++ [InnerCall.read])

/-- Method `Write` (deadlineconn.go:92-99). -/
def Write (c : DeadlineConn) (now : Int) (inr : Int × Option ConnError) :
    DeadlineConn × (Int × Option ConnError) × List InnerCall :=
  if c.abortWrites = true then (c, (0, some ConnError.deadlineExceeded), [])
  else
    let p := setWriteDeadline c now
    (p.1, inr, p.2 ++ [InnerCall.write])

/-- Method `SetDeadline` (deadlineconn.go:103-132).  `readClearErr` / `writeClearErr`
are the errors the inner `SetReadDeadline(zero)` / `SetWriteDeadline(zero)`
calls would return; `setErr` is the error of the inner combined
`SetDeadline(t)`. -/
def SetDeadline (c : DeadlineConn) (now t : Int)
    (readClearErr writeClearErr setErr : Option ConnError) :
    DeadlineConn × Option ConnError × List InnerCall :=
  if t = 0 then
    let rstep : Option ConnError × List InnerCall :=
      if c.readDeadline = 0 then (readClearErr, [InnerCall.setReadDeadline 0]) else (none, [])
    if c.writeDeadline = 0 then
      match writeClearErr with
      | some w => (c, some w, rstep.2 ++ [InnerCall.setWriteDeadline 0])
      | none =>
          ({ c with abortReads := false, abortWrites := false }, rstep.1,
            rstep.2 ++ [InnerCall.setWriteDeadline 0])
    else
      ({ c with abortReads := false, abortWrites := false }, rstep.1, rstep.2)
  else if t - now < 0 then
    ({ c with abortReads := true, abortWrites := true }, setErr, [InnerCall.setDeadline t])
  else
    ({ c with abortReads := false, abortWrites := false, readSetAt := now, writeSetAt := now },
      setErr, [InnerCall.setDeadline t])

/-- Method `SetReadDeadline` (deadlineconn.go:137-149). -/
def SetReadDeadline (c : DeadlineConn) (now t : Int) (innerErr : Option ConnError) :
    DeadlineConn × Option ConnError × List InnerCall :=
  if t = 0 ∧ c.readDeadline ≠ 0 then
    ({ c with abortReads := false }, none, [])
  else
    ({ c with abortReads := decide (t - now < 0), readSetAt := now }, innerErr,
      [InnerCall.setReadDeadline t])

/-- Method `SetWriteDeadline` (deadlineconn.go:156-167). -/
def SetWriteDeadline (c : DeadlineConn) (now t : Int) (innerErr : Option ConnError) :
    DeadlineConn × Option ConnError × List InnerCall :=
  if t = 0 ∧ c.writeDeadline ≠ 0 then
    ({ c with abortWrites := false }, none, [])
  else
    ({ c with abortWrites := decide (t - now < 0), writeSetAt := now }, innerErr,
      [InnerCall.setWriteDeadline t])

/-- Method `Close` (deadlineconn.go:170-174).  `closeErr` is the error of the inner close. -/
def Close (c : DeadlineConn) (closeErr : Option ConnError) :
    DeadlineConn × Option ConnError × List InnerCall :=
  ({ c with abortReads := true, abortWrites := true }, closeErr, [InnerCall.close])

/-- Builder `WithReadDeadline` (deadlineconn.go:178-181). -/
def WithReadDeadline (c : DeadlineConn) (d : Int) : DeadlineConn :=
  { c with readDeadline := d }

/-- Builder `WithWriteDeadline` (deadlineconn.go:184-187). -/
def WithWriteDeadline (c : DeadlineConn) (d : Int) : DeadlineConn :=
  { c with writeDeadline := d }

end DeadlineConn

/-- Constructor `New` (deadlineconn.go:190-193): all fields at their Go zero values. -/
def New : DeadlineConn := {}

/-- Number of inner `SetReadDeadline` calls in a call trace. -/
def countReadPushes : List InnerCall → Nat
  | [] => 0
  | InnerCall.setReadDeadline _ :: rest => countReadPushes rest + 1
  | _ :: rest => countReadPushes rest

/-- Number of inner `SetWriteDeadline` calls in a call trace. -/
def countWritePushes : List InnerCall → Nat
  | [] => 0
  | InnerCall.setWriteDeadline _ :: rest => countWritePushes rest + 1
  | _ :: rest => countWritePushes rest

/-- Run a sequence of `Read` calls at the given times (inner read returning
`(0, nil)`) and count the inner read-deadline pushes made. -/
def runReads (c : DeadlineConn) : List Int → Nat
  | [] => 0
  | t :: ts =>
      countReadPushes (DeadlineConn.Read c t (0, none)).2.2 +
        runReads (DeadlineConn.Read c t (0, none)).1 ts

/-- Run a sequence of `Write` calls at the given times and count the inner
write-deadline pushes made. -/
def runWrites (c : DeadlineConn) : List Int → Nat
  | [] => 0
  | t :: ts =>
      countWritePushes (DeadlineConn.Write c t (0, none)).2.2 +
        runWrites (DeadlineConn.Write c t (0, none)).1 ts

/-- A read or write call: the time it happens at and the inner result it
would see. -/
inductive RWOp where
  | readOp (now : Int) (r : Int × Option ConnError)
  | writeOp (now : Int) (r : Int × Option ConnError)

/-- Run a sequence of read/write calls, collecting the result of each call and
inner-call trace. -/
def runOps (c : DeadlineConn) : List RWOp → List ((Int × Option ConnError) × List InnerCall)
  | [] => []
  | RWOp.readOp t r :: rest =>
      ((DeadlineConn.Read c t r).2.1, (DeadlineConn.Read c t r).2.2) ::
        runOps (DeadlineConn.Read c t r).1 rest
  | RWOp.writeOp t r :: rest =>
      ((DeadlineConn.Write c t r).2.1, (DeadlineConn.Write c t r).2.2) ::
        runOps (DeadlineConn.Write c t r).1 rest

/-- State for the 100 ms-timeout timing scenario: read timeout 100 ms, last
push long in the past so a read at t = 0 pushes. -/
def scon : DeadlineConn :=
  { readDeadline := 100 * millisecond, readSetAt := -(300 * millisecond),
    writeDeadline := 0, writeSetAt := 0, abortReads := false, abortWrites := false }

/-- Scenario state after the read at t = 0. -/
def scon1 : DeadlineConn := (DeadlineConn.Read scon 0 (1, none)).1

/-- Scenario state after the reads at t = 0 and t = 50 ms. -/
def scon2 : DeadlineConn := (DeadlineConn.Read scon1 (50 * millisecond) (1, none)).1

/-- Scenario state armed only on the write side with a 100 ms timeout. -/
def wconly : DeadlineConn :=
  { readDeadline := 0, readSetAt := 0, writeDeadline := 100 * millisecond,
    writeSetAt := -(300 * millisecond), abortReads := false, abortWrites := false }

/-- Concrete state with both timeouts disabled and both directions aborted,
used to probe the zero-time `SetDeadline` path. -/
def c3s : DeadlineConn :=
  { readDeadline := 0, readSetAt := 0, writeDeadline := 0, writeSetAt := 0,
    abortReads := true, abortWrites := true }

/-- Concrete state with only the read side aborted. -/
def rAbortConn : DeadlineConn := { c3s with abortWrites := false }

/-- Concrete state with only the write side aborted. -/
def wAbortConn : DeadlineConn := { c3s with abortReads := false }

/-- Concrete state with only a read timeout configured, read side aborted. -/
def rOnlyConn : DeadlineConn := { c3s with readDeadline := millisecond }

/-- Concrete state with only a write timeout configured, write side aborted. -/
def wOnlyConn : DeadlineConn := { c3s with writeDeadline := millisecond }

section Theorems

/-- C1: for each direction, the internal coalesced deadline push pushes
`now + timeout + updateInterval` to the inner stream and records `now` as the
last-push time exactly when the timeout is strictly positive, the abort flag
of the direction is false, and the time elapsed since the last recorded push
strictly exceeds the 250 ms update interval; otherwise it pushes nothing.
With timeout = 100 ms: a push at t = 0 sets the inner deadline to 350 ms, a
read at 50 ms pushes nothing, and a read at 260 ms pushes 610 ms. -/
theorem deadline_push_rule (c : DeadlineConn) (now : Int) :
    (0 < c.readDeadline → c.abortReads = false → updateInterval < now - c.readSetAt →
      DeadlineConn.setReadDeadline c now =
        ({ c with readSetAt := now },
          [InnerCall.setReadDeadline (now + c.readDeadline + updateInterval)])) ∧
    (¬ (0 < c.readDeadline ∧ c.abortReads = false ∧ updateInterval < now - c.readSetAt) →
      DeadlineConn.setReadDeadline c now = (c, [])) ∧
    (0 < c.writeDeadline → c.abortWrites = false → updateInterval < now - c.writeSetAt →
      DeadlineConn.setWriteDeadline c now =
        ({ c with writeSetAt := now },
          [InnerCall.setWriteDeadline (now + c.writeDeadline + updateInterval)])) ∧
    (¬ (0 < c.writeDeadline ∧ c.abortWrites = false ∧ updateInterval < now - c.writeSetAt) →
      DeadlineConn.setWriteDeadline c now = (c, [])) ∧
    ((DeadlineConn.Read scon 0 (1, none)).2.2 =
        [InnerCall.setReadDeadline (350 * millisecond), InnerCall.read] ∧
      (DeadlineConn.Read scon1 (50 * millisecond) (1, none)).2.2 = [InnerCall.read] ∧
      (DeadlineConn.Read scon2 (260 * millisecond) (1, none)).2.2 =
        [InnerCall.setReadDeadline (610 * millisecond), InnerCall.read]) := by
  refine ⟨?_, ?_, ?_, ?_, by decide⟩
  · intro hd ha ht
    rw [DeadlineConn.setReadDeadline, if_neg (by simp [ha]; omega), if_neg (by simp [ha]),
      if_pos ht]
  · intro hn
    by_cases h1 : c.readDeadline ≤ 0
    · rw [DeadlineConn.setReadDeadline, if_pos (Or.inl h1)]
    · by_cases h2 : c.abortReads = true
      · rw [DeadlineConn.setReadDeadline, if_pos (Or.inr h2)]
      · have h3 : ¬ updateInterval < now - c.readSetAt := fun hc =>
          hn ⟨by omega, by simpa using h2, hc⟩
        rw [DeadlineConn.setReadDeadline, if_neg (by simp [h1, h2]), if_neg h2, if_neg h3]
  · intro hd ha ht
    rw [DeadlineConn.setWriteDeadline, if_neg (by simp [ha]; omega), if_neg (by simp [ha]),
      if_pos ht]
  · intro hn
    by_cases h1 : c.writeDeadline ≤ 0
    · rw [DeadlineConn.setWriteDeadline, if_pos (Or.inl h1)]
    · by_cases h2 : c.abortWrites = true
      · rw [DeadlineConn.setWriteDeadline, if_pos (Or.inr h2)]
      · have h3 : ¬ updateInterval < now - c.writeSetAt := fun hc =>
          hn ⟨by omega, by simpa using h2, hc⟩
        rw [DeadlineConn.setWriteDeadline, if_neg (by simp [h1, h2]), if_neg h2, if_neg h3]

/-- C1 witness: the push rule applied at the scenario state and t = 0. -/
theorem deadline_push_rule_witness :
    DeadlineConn.setReadDeadline scon 0 =
      ({ scon with readSetAt := 0 },
        [InnerCall.setReadDeadline (0 + scon.readDeadline + updateInterval)]) :=
  (deadline_push_rule scon 0).1 (by decide) (by decide) (by decide)

end Theorems

/-- C7: a Read while abortReads is set (and a Write while abortWrites is set)
returns a deadline-exceeded error synchronously and makes no call into the
inner stream; each direction is conditioned only on its own flag. -/
theorem abort_fast_path_error (c : DeadlineConn) (now : Int) (r w : Int × Option ConnError) :
    (c.abortReads = true →
      (DeadlineConn.Read c now r).2.1.2 = some ConnError.deadlineExceeded ∧
      (DeadlineConn.Read c now r).2.2 = []) ∧
    (c.abortWrites = true →
      (DeadlineConn.Write c now w).2.1.2 = some ConnError.deadlineExceeded ∧
      (DeadlineConn.Write c now w).2.2 = []) := by
  constructor
  · intro hr
    rw [DeadlineConn.Read, if_pos hr]
    exact ⟨rfl, rfl⟩
  · intro hw2
    rw [DeadlineConn.Write, if_pos hw2]
    exact ⟨rfl, rfl⟩

/-- C7 witness: the fast path at states where only the one direction is
aborted — a read with only abortReads set, a write with only abortWrites
set. -/
theorem abort_fast_path_error_witness :
    ((DeadlineConn.Read rAbortConn 7 (5, none)).2.1.2 = some ConnError.deadlineExceeded ∧
      (DeadlineConn.Read rAbortConn 7 (5, none)).2.2 = []) ∧
    ((DeadlineConn.Write wAbortConn 7 (5, none)).2.1.2 = some ConnError.deadlineExceeded ∧
      (DeadlineConn.Write wAbortConn 7 (5, none)).2.2 = []) :=
  ⟨(abort_fast_path_error rAbortConn 7 (5, none) (5, none)).1 (by decide),
    (abort_fast_path_error wAbortConn 7 (5, none) (5, none)).2 (by decide)⟩

/-- C10: the abort fast path is atomic: a Read (resp. Write) while its own
abort flag is set returns exactly zero bytes with the deadline-exceeded error
and leaves every wrapper field unchanged, whatever the other flag. -/
theorem abort_fast_path_frame (c : DeadlineConn) (now : Int) (r w : Int × Option ConnError) :
    (c.abortReads = true →
      DeadlineConn.Read c now r = (c, (0, some ConnError.deadlineExceeded), [])) ∧
    (c.abortWrites = true →
      DeadlineConn.Write c now w = (c, (0, some ConnError.deadlineExceeded), [])) := by
  constructor
  · intro hr
    rw [DeadlineConn.Read, if_pos hr]
  · intro hw2
    rw [DeadlineConn.Write, if_pos hw2]

/-- C10 witness: the frame property at states where only the one direction is
aborted. -/
theorem abort_fast_path_frame_witness :
    DeadlineConn.Read rAbortConn 9 (4, some (ConnError.inner 3)) =
      (rAbortConn, (0, some ConnError.deadlineExceeded), []) ∧
    DeadlineConn.Write wAbortConn 9 (4, some (ConnError.inner 3)) =
      (wAbortConn, (0, some ConnError.deadlineExceeded), []) :=
  ⟨(abort_fast_path_frame rAbortConn 9 (4, some (ConnError.inner 3))
      (4, some (ConnError.inner 3))).1 (by decide),
    (abort_fast_path_frame wAbortConn 9 (4, some (ConnError.inner 3))
      (4, some (ConnError.inner 3))).2 (by decide)⟩

/-- C8: with its own abort flag false — the other flag unconstrained — a Read
(resp. Write) delegates to the inner stream and returns its result — byte
count and error, including a partial write — unchanged. -/
theorem delegate_passthrough (c : DeadlineConn) (now : Int) (r w : Int × Option ConnError) :
    (c.abortReads = false →
      (DeadlineConn.Read c now r).2.1 = r ∧
      InnerCall.read ∈ (DeadlineConn.Read c now r).2.2) ∧
    (c.abortWrites = false →
      (DeadlineConn.Write c now w).2.1 = w ∧
      InnerCall.write ∈ (DeadlineConn.Write c now w).2.2) := by
  constructor
  · intro hr
    rw [DeadlineConn.Read, if_neg (by simp [hr])]
    exact ⟨rfl, by simp⟩
  · intro hw2
    rw [DeadlineConn.Write, if_neg (by simp [hw2])]
    exact ⟨rfl, by simp⟩

/-- C8 witness: a read passes through while the write side is aborted, and a
partial write (3 bytes together with an inner error) passes through while the
read side is aborted. -/
theorem delegate_passthrough_witness :
    ((DeadlineConn.Read wAbortConn 11 (2, none)).2.1 = (2, none) ∧
      InnerCall.read ∈ (DeadlineConn.Read wAbortConn 11 (2, none)).2.2) ∧
    ((DeadlineConn.Write rAbortConn 11 (3, some (ConnError.inner 7))).2.1 =
        (3, some (ConnError.inner 7)) ∧
      InnerCall.write ∈ (DeadlineConn.Write rAbortConn 11 (3, some (ConnError.inner 7))).2.2) :=
  ⟨(delegate_passthrough wAbortConn 11 (2, none) (3, some (ConnError.inner 7))).1 (by decide),
    (delegate_passthrough rAbortConn 11 (2, none) (3, some (ConnError.inner 7))).2 (by decide)⟩

/-- C9 counterexample: starting from New, the builder stores a negative
duration verbatim, so the configured read timeout is neither zero nor
strictly positive. -/
theorem nonneg_timeout_cex :
    ¬ ((New.WithReadDeadline (-millisecond)).readDeadline = 0 ∨
       0 < (New.WithReadDeadline (-millisecond)).readDeadline) := by decide

/-- C9 amended: New initializes both configured timeouts to zero, and the
builders store the duration they are given verbatim — with no validation, so
a negative argument yields a negative configured timeout; any non-positive
timeout merely disables the coalesced push for its direction. -/
theorem builders_store_verbatim (c : DeadlineConn) (d : Int) :
    (c.WithReadDeadline d).readDeadline = d ∧
    (c.WithWriteDeadline d).writeDeadline = d ∧
    New.readDeadline = 0 ∧ New.writeDeadline = 0 ∧
    (d ≤ 0 → ∀ now : Int,
      DeadlineConn.setReadDeadline (c.WithReadDeadline d) now = (c.WithReadDeadline d, []) ∧
      DeadlineConn.setWriteDeadline (c.WithWriteDeadline d) now = (c.WithWriteDeadline d, [])) := by
  refine ⟨rfl, rfl, rfl, rfl, fun hd now => ⟨?_, ?_⟩⟩
  · rw [DeadlineConn.setReadDeadline,
      if_pos (Or.inl (show (c.WithReadDeadline d).readDeadline ≤ 0 from hd))]
  · rw [DeadlineConn.setWriteDeadline,
      if_pos (Or.inl (show (c.WithWriteDeadline d).writeDeadline ≤ 0 from hd))]

/-- C9-amended witness: a negative builder argument is stored verbatim and
disables the push. -/
theorem builders_store_verbatim_witness :
    (New.WithReadDeadline (-5)).readDeadline = -5 ∧
    DeadlineConn.setReadDeadline (New.WithReadDeadline (-5)) 1000 =
      (New.WithReadDeadline (-5), []) :=
  ⟨(builders_store_verbatim New (-5)).1,
    ((builders_store_verbatim New (-5)).2.2.2.2 (by decide) 1000).1⟩

/-- C3 counterexample: with both timeouts zero, both abort flags set and both
inner clears failing, SetDeadline(zero) reports the write-side (second) error,
not the read-side (first) one, and leaves the abort flags set. -/
theorem zero_setDeadline_error_cex :
    ¬ ((DeadlineConn.SetDeadline c3s 1000 0 (some (ConnError.inner 1))
          (some (ConnError.inner 2)) none).2.1 = some (ConnError.inner 1) ∧
       (DeadlineConn.SetDeadline c3s 1000 0 (some (ConnError.inner 1))
          (some (ConnError.inner 2)) none).1.abortReads = false) := by decide

/-- C3 amended: SetDeadline(zero) propagates a zero-deadline clear to the
inner stream for each direction whose configured timeout is zero.  If the
write-side clear fails, it returns that write-side error immediately and
leaves both abort flags unchanged; otherwise it clears both abort flags and
returns the error of the read-side clear (nil when the read side was not
cleared or did not fail). -/
theorem zero_setDeadline_behavior (c : DeadlineConn) (now : Int)
    (re we se : Option ConnError) :
    (c.writeDeadline = 0 → ∀ w, we = some w →
      DeadlineConn.SetDeadline c now 0 re we se =
        (c, some w,
          (if c.readDeadline = 0 then [InnerCall.setReadDeadline 0] else []) ++
            [InnerCall.setWriteDeadline 0])) ∧
    ((c.writeDeadline = 0 → we = none) →
      DeadlineConn.SetDeadline c now 0 re we se =
        ({ c with abortReads := false, abortWrites := false },
          (if c.readDeadline = 0 then re else none),
          (if c.readDeadline = 0 then [InnerCall.setReadDeadline 0] else []) ++
            (if c.writeDeadline = 0 then [InnerCall.setWriteDeadline 0] else []))) := by
  constructor
  · intro hwd w hwe
    rw [DeadlineConn.SetDeadline, if_pos rfl]
    simp only [hwd, if_pos rfl, hwe]
    by_cases hrd : c.readDeadline = 0 <;> simp [hrd]
  · intro hcl
    rw [DeadlineConn.SetDeadline, if_pos rfl]
    by_cases hwd : c.writeDeadline = 0
    · simp only [hwd, if_pos rfl, hcl hwd]
      by_cases hrd : c.readDeadline = 0 <;> simp [hrd]
    · simp only [hwd, if_neg hwd]
      by_cases hrd : c.readDeadline = 0 <;> simp [hrd]

/-- C3-amended witness: read clear fails, write clear succeeds — the
read-side error is reported and both abort flags end false. -/
theorem zero_setDeadline_behavior_witness :
    DeadlineConn.SetDeadline c3s 1000 0 (some (ConnError.inner 1)) none none =
      ({ c3s with abortReads := false, abortWrites := false },
        (if c3s.readDeadline = 0 then some (ConnError.inner 1) else none),
        (if c3s.readDeadline = 0 then [InnerCall.setReadDeadline 0] else []) ++
          (if c3s.writeDeadline = 0 then [InnerCall.setWriteDeadline 0] else [])) :=
  (zero_setDeadline_behavior c3s 1000 (some (ConnError.inner 1)) none none).2
    (fun _ => rfl)

/-- C4: SetDeadline with a non-zero time strictly in the past sets both abort
flags, forwards the time to the inner combined deadline setter and returns
its error; the next Read and the next Write then fail immediately with a
deadline-exceeded error and no inner I/O call, whatever the configured
timeouts. -/
theorem past_setDeadline_aborts (c : DeadlineConn) (now t now2 now3 : Int)
    (re we se : Option ConnError) (r w : Int × Option ConnError)
    (h0 : t ≠ 0) (h1 : t < now) :
    DeadlineConn.SetDeadline c now t re we se =
      ({ c with abortReads := true, abortWrites := true }, se, [InnerCall.setDeadline t]) ∧
    DeadlineConn.Read (DeadlineConn.SetDeadline c now t re we se).1 now2 r =
      ((DeadlineConn.SetDeadline c now t re we se).1,
        (0, some ConnError.deadlineExceeded), []) ∧
    DeadlineConn.Write (DeadlineConn.SetDeadline c now t re we se).1 now3 w =
      ((DeadlineConn.SetDeadline c now t re we se).1,
        (0, some ConnError.deadlineExceeded), []) := by
  have hset : DeadlineConn.SetDeadline c now t re we se =
      ({ c with abortReads := true, abortWrites := true }, se, [InnerCall.setDeadline t]) := by
    rw [DeadlineConn.SetDeadline, if_neg h0, if_pos (by omega)]
  refine ⟨hset, ?_, ?_⟩
  · rw [hset, DeadlineConn.Read, if_pos rfl]
  · rw [hset, DeadlineConn.Write, if_pos rfl]

/-- C4 witness: a past deadline on a never-configured wrapper aborts the next
read and write. -/
theorem past_setDeadline_aborts_witness :
    DeadlineConn.SetDeadline New 100 (-7) none none (some (ConnError.inner 9)) =
      ({ New with abortReads := true, abortWrites := true },
        some (ConnError.inner 9), [InnerCall.setDeadline (-7)]) ∧
    DeadlineConn.Read (DeadlineConn.SetDeadline New 100 (-7) none none
        (some (ConnError.inner 9))).1 101 (5, none) =
      ((DeadlineConn.SetDeadline New 100 (-7) none none (some (ConnError.inner 9))).1,
        (0, some ConnError.deadlineExceeded), []) ∧
    DeadlineConn.Write (DeadlineConn.SetDeadline New 100 (-7) none none
        (some (ConnError.inner 9))).1 102 (5, none) =
      ((DeadlineConn.SetDeadline New 100 (-7) none none (some (ConnError.inner 9))).1,
        (0, some ConnError.deadlineExceeded), []) :=
  past_setDeadline_aborts New 100 (-7) 101 102 none none (some (ConnError.inner 9))
    (5, none) (5, none) (by decide) (by decide)

/-- C6: SetReadDeadline(zero) with a positive configured read timeout (and
symmetrically SetWriteDeadline on the write side, each direction conditioned
only on its own timeout) only clears the abort flag of that direction and
returns nil: no inner call, every other field — including the last-push
timestamp — unchanged. -/
theorem zero_setReadDeadline_resume (c : DeadlineConn) (now : Int) (e : Option ConnError) :
    (0 < c.readDeadline →
      DeadlineConn.SetReadDeadline c now 0 e = ({ c with abortReads := false }, none, []) ∧
      (DeadlineConn.SetReadDeadline c now 0 e).1.readSetAt = c.readSetAt) ∧
    (0 < c.writeDeadline →
      DeadlineConn.SetWriteDeadline c now 0 e = ({ c with abortWrites := false }, none, []) ∧
      (DeadlineConn.SetWriteDeadline c now 0 e).1.writeSetAt = c.writeSetAt) := by
  constructor
  · intro hr
    have h1 : DeadlineConn.SetReadDeadline c now 0 e =
        ({ c with abortReads := false }, none, []) := by
      rw [DeadlineConn.SetReadDeadline, if_pos ⟨rfl, by omega⟩]
    exact ⟨h1, by rw [h1]⟩
  · intro hw2
    have h2 : DeadlineConn.SetWriteDeadline c now 0 e =
        ({ c with abortWrites := false }, none, []) := by
      rw [DeadlineConn.SetWriteDeadline, if_pos ⟨rfl, by omega⟩]
    exact ⟨h2, by rw [h2]⟩

/-- C6 witness: the zero-time setters at aborted wrappers where only the one
direction has a configured timeout. -/
theorem zero_setReadDeadline_resume_witness :
    (DeadlineConn.SetReadDeadline rOnlyConn 42 0 none =
        ({ rOnlyConn with abortReads := false }, none, []) ∧
      (DeadlineConn.SetReadDeadline rOnlyConn 42 0 none).1.readSetAt =
        rOnlyConn.readSetAt) ∧
    (DeadlineConn.SetWriteDeadline wOnlyConn 42 0 none =
        ({ wOnlyConn with abortWrites := false }, none, []) ∧
      (DeadlineConn.SetWriteDeadline wOnlyConn 42 0 none).1.writeSetAt =
        wOnlyConn.writeSetAt) :=
  ⟨(zero_setReadDeadline_resume rOnlyConn 42 none).1 (by decide),
    (zero_setReadDeadline_resume wOnlyConn 42 none).2 (by decide)⟩

/-- Helper: with both abort flags set, a Read returns the fast-path failure
and leaves the state unchanged, and so does a Write. -/
theorem runOps_aborted (ops : List RWOp) (c : DeadlineConn)
    (h1 : c.abortReads = true) (h2 : c.abortWrites = true) :
    runOps c ops =
      ops.map (fun _ => ((0, some ConnError.deadlineExceeded), ([] : List InnerCall))) := by
  induction ops generalizing c with
  | nil => rfl
  | cons op rest ih =>
    cases op with
    | readOp t r =>
      have hr : DeadlineConn.Read c t r = (c, (0, some ConnError.deadlineExceeded), []) := by
        rw [DeadlineConn.Read, if_pos h1]
      simp only [runOps, hr, List.map]
      rw [ih c h1 h2]
    | writeOp t r =>
      have hw : DeadlineConn.Write c t r = (c, (0, some ConnError.deadlineExceeded), []) := by
        rw [DeadlineConn.Write, if_pos h2]
      simp only [runOps, hw, List.map]
      rw [ih c h1 h2]

/-- C5: Close sets both abort flags, closes the inner stream exactly once and
returns the error of the inner close; afterwards every sequence of Read/Write
calls yields only `(0, deadline-exceeded)` results with zero inner calls. -/
theorem close_aborts_all (c : DeadlineConn) (e : Option ConnError) :
    DeadlineConn.Close c e =
      ({ c with abortReads := true, abortWrites := true }, e, [InnerCall.close]) ∧
    ∀ ops : List RWOp,
      runOps (DeadlineConn.Close c e).1 ops =
        ops.map (fun _ => ((0, some ConnError.deadlineExceeded), ([] : List InnerCall))) := by
  refine ⟨rfl, fun ops => runOps_aborted ops _ rfl rfl⟩

/-- Helper: a single Read step either pushes one read deadline and records
the call time, or pushes none and leaves the state unchanged; a push requires
a positive timeout, abort false, and elapsed time beyond the interval. -/
theorem read_step_cases (c : DeadlineConn) (t : Int) (r : Int × Option ConnError) :
    ((0 < c.readDeadline ∧ c.abortReads = false ∧ updateInterval < t - c.readSetAt) ∧
      (DeadlineConn.Read c t r).1 = { c with readSetAt := t } ∧
      countReadPushes (DeadlineConn.Read c t r).2.2 = 1) ∨
    ((DeadlineConn.Read c t r).1 = c ∧ countReadPushes (DeadlineConn.Read c t r).2.2 = 0) := by
  by_cases h1 : c.abortReads = true
  · right
    rw [DeadlineConn.Read, if_pos h1]
    exact ⟨rfl, rfl⟩
  · rw [DeadlineConn.Read, if_neg h1]
    by_cases h2 : c.readDeadline ≤ 0
    · right
      rw [DeadlineConn.setReadDeadline, if_pos (Or.inl h2)]
      exact ⟨rfl, by simp [countReadPushes]⟩
    · by_cases h3 : updateInterval < t - c.readSetAt
      · left
        rw [DeadlineConn.setReadDeadline, if_neg (by simp [h1, h2]), if_neg h1, if_pos h3]
        exact ⟨⟨by omega, by simpa using h1, h3⟩, rfl, by simp [countReadPushes]⟩
      · right
        rw [DeadlineConn.setReadDeadline, if_neg (by simp [h1, h2]), if_neg h1, if_neg h3]
        exact ⟨rfl, by simp [countReadPushes]⟩

/-- Helper: write-side mirror of the single-step case analysis. -/
theorem write_step_cases (c : DeadlineConn) (t : Int) (r : Int × Option ConnError) :
    ((0 < c.writeDeadline ∧ c.abortWrites = false ∧ updateInterval < t - c.writeSetAt) ∧
      (DeadlineConn.Write c t r).1 = { c with writeSetAt := t } ∧
      countWritePushes (DeadlineConn.Write c t r).2.2 = 1) ∨
    ((DeadlineConn.Write c t r).1 = c ∧
      countWritePushes (DeadlineConn.Write c t r).2.2 = 0) := by
  by_cases h1 : c.abortWrites = true
  · right
    rw [DeadlineConn.Write, if_pos h1]
    exact ⟨rfl, rfl⟩
  · rw [DeadlineConn.Write, if_neg h1]
    by_cases h2 : c.writeDeadline ≤ 0
    · right
      rw [DeadlineConn.setWriteDeadline, if_pos (Or.inl h2)]
      exact ⟨rfl, by simp [countWritePushes]⟩
    · by_cases h3 : updateInterval < t - c.writeSetAt
      · left
        rw [DeadlineConn.setWriteDeadline, if_neg (by simp [h1, h2]), if_neg h1, if_pos h3]
        exact ⟨⟨by omega, by simpa using h1, h3⟩, rfl, by simp [countWritePushes]⟩
      · right
        rw [DeadlineConn.setWriteDeadline, if_neg (by simp [h1, h2]), if_neg h1, if_neg h3]
        exact ⟨rfl, by simp [countWritePushes]⟩

/-- Helper: reads all within the update interval of the last recorded push
make no inner deadline push at all. -/
theorem runReads_zero (ts : List Int) (c : DeadlineConn)
    (h : ∀ t ∈ ts, t - c.readSetAt ≤ updateInterval) : runReads c ts = 0 := by
  induction ts generalizing c with
  | nil => rfl
  | cons t rest ih =>
    have hnot : ¬ updateInterval < t - c.readSetAt := by
      have := h t (by simp)
      omega
    rcases read_step_cases c t (0, none) with ⟨⟨_, _, hlt⟩, _⟩ | ⟨hst, hcnt⟩
    · exact absurd hlt hnot
    · rw [runReads, hst, hcnt, Nat.zero_add]
      exact ih c fun u hu => h u (List.mem_cons_of_mem _ hu)

/-- Helper: write-side mirror of `runReads_zero`. -/
theorem runWrites_zero (ts : List Int) (c : DeadlineConn)
    (h : ∀ t ∈ ts, t - c.writeSetAt ≤ updateInterval) : runWrites c ts = 0 := by
  induction ts generalizing c with
  | nil => rfl
  | cons t rest ih =>
    have hnot : ¬ updateInterval < t - c.writeSetAt := by
      have := h t (by simp)
      omega
    rcases write_step_cases c t (0, none) with ⟨⟨_, _, hlt⟩, _⟩ | ⟨hst, hcnt⟩
    · exact absurd hlt hnot
    · rw [runWrites, hst, hcnt, Nat.zero_add]
      exact ih c fun u hu => h u (List.mem_cons_of_mem _ hu)

/-- Helper: reads confined to a window narrower than the update interval push
at most one inner read deadline. -/
theorem runReads_window (ts : List Int) (c : DeadlineConn) (lo hi : Int)
    (hw : hi - lo < updateInterval) (ht : ∀ t ∈ ts, lo ≤ t ∧ t ≤ hi) :
    runReads c ts ≤ 1 := by
  induction ts generalizing c with
  | nil => simp [runReads]
  | cons t rest ih =>
    rcases read_step_cases c t (0, none) with ⟨_, hst, hcnt⟩ | ⟨hst, hcnt⟩
    · rw [runReads, hst, hcnt]
      have hz : runReads { c with readSetAt := t } rest = 0 := by
        apply runReads_zero
        intro u hu
        have h1 := ht u (List.mem_cons_of_mem _ hu)
        have h2 := ht t (by simp)
        simp only []
        omega
      omega
    · rw [runReads, hst, hcnt]
      simpa using ih c fun u hu => ht u (List.mem_cons_of_mem _ hu)

/-- Helper: write-side mirror of `runReads_window`. -/
theorem runWrites_window (ts : List Int) (c : DeadlineConn) (lo hi : Int)
    (hw : hi - lo < updateInterval) (ht : ∀ t ∈ ts, lo ≤ t ∧ t ≤ hi) :
    runWrites c ts ≤ 1 := by
  induction ts generalizing c with
  | nil => simp [runWrites]
  | cons t rest ih =>
    rcases write_step_cases c t (0, none) with ⟨_, hst, hcnt⟩ | ⟨hst, hcnt⟩
    · rw [runWrites, hst, hcnt]
      have hz : runWrites { c with writeSetAt := t } rest = 0 := by
        apply runWrites_zero
        intro u hu
        have h1 := ht u (List.mem_cons_of_mem _ hu)
        have h2 := ht t (by simp)
        simp only []
        omega
      omega
    · rw [runWrites, hst, hcnt]
      simpa using ih c fun u hu => ht u (List.mem_cons_of_mem _ hu)

/-- C2: for each direction with a strictly positive configured timeout and
abort flag false — conditioned only on that direction — any sequence of Read
(resp. Write) calls whose times all lie in a window narrower than the 250 ms
update interval pushes at most one new absolute deadline to the inner stream;
the remaining calls make no inner deadline-set call. -/
theorem coalesced_window_single_push (c : DeadlineConn) (ts : List Int) (lo hi : Int)
    (hw : hi - lo < updateInterval) (ht : ∀ t ∈ ts, lo ≤ t ∧ t ≤ hi) :
    (0 < c.readDeadline → c.abortReads = false → runReads c ts ≤ 1) ∧
    (0 < c.writeDeadline → c.abortWrites = false → runWrites c ts ≤ 1) :=
  ⟨fun _ _ => runReads_window ts c lo hi hw ht,
    fun _ _ => runWrites_window ts c lo hi hw ht⟩

/-- C2 witness: three calls at 0 ms, 50 ms and 200 ms, reads on a wrapper
armed only on the read side and writes on a wrapper armed only on the write
side, each pushing at most one deadline. -/
theorem coalesced_window_single_push_witness :
    runReads scon [0, 50 * millisecond, 200 * millisecond] ≤ 1 ∧
    runWrites wconly [0, 50 * millisecond, 200 * millisecond] ≤ 1 :=
  ⟨(coalesced_window_single_push scon [0, 50 * millisecond, 200 * millisecond]
      0 (200 * millisecond) (by decide) (by decide)).1 (by decide) (by decide),
    (coalesced_window_single_push wconly [0, 50 * millisecond, 200 * millisecond]
      0 (200 * millisecond) (by decide) (by decide)).2 (by decide) (by decide)⟩
